import Mathlib
/-!
# Verification of the `NgxSmartFormsService` form-state registry

A shallow embedding of `src/lib/services/ngx-smart-forms.service.ts`.

The service is a stateful registry keyed by form-group identity, holding
three parallel tables:
  * `initialValuesMap` — per-field initial-value snapshot,
  * `formChangedMap`   — a writable boolean signal per form,
  * `subscriptions`    — the rxjs subscription driving that signal.

Modelling choices:
  * A form-group reference is `Option Nat`: `none` is the JavaScript `null`
    reference, `some id` a real `FormGroup` object identified by `id`.
  * Field values are opaque tokens (`Nat`) compared with decidable equality,
    standing for the strict `!==` reference/primitive comparison of the source.
  * Signals and subscriptions live in explicit heaps keyed by allocation
    ids, so that cell identity (`Signal` reference equality) and the
    unsubscribed/active status of a `Subscription` object are observable.
  * The live `FormGroup` contents (controls, pristine flag) live in a
    `World`, mutated by the reset operations and read by the diff.
  * Methods that dereference a possibly-null form (`formGroup.controls`,
    `formGroup.valueChanges`) are wrapped in `Except Unit`, the error being
    the JavaScript `TypeError` thrown on a null dereference.
-/

/-- Opaque field value; distinct tokens model values that are strictly
(`!==`) unequal in JavaScript. -/
abbrev Value := Nat

/-- Opaque validator function token (`ValidatorFn`). -/
abbrev Validator := Nat

/-- A live `AbstractControl`: current value, disabled flag, and the
composed validator (`control.validator`), if any. -/
structure Control where
  value : Value
  disabled : Bool
  validator : Option Validator
  deriving DecidableEq, Repr

/-- `IControlState` from `models/form`: the captured per-field snapshot
entry (value, disabled flag, validators array or null). -/
structure IControlState where
  value : Value
  disabled : Bool
  validators : Option (List Validator)
  deriving DecidableEq, Repr

/-- The `controls` object of a live `FormGroup`: field name to control. -/
abbrev Controls := List (String × Control)

/-- A stored snapshot: `{ [key: string]: IControlState }`. -/
abbrev Snapshot := List (String × IControlState)

/-- A form-group reference; `none` is the null reference. -/
abbrev FormKey := Option Nat

abbrev SignalId := Nat

abbrev SubId := Nat

/-- A live `FormGroup` object: its controls and its pristine flag. -/
structure FormState where
  controls : Controls
  pristine : Bool
  deriving DecidableEq, Repr

/-- The live form objects, by reference id. -/
abbrev World := List (Nat × FormState)

/-- An rxjs subscription installed by `storeInitialValues`: it closes over
the form it observes and the signal it writes, and can be unsubscribed. -/
structure SubRec where
  form : FormKey
  sig : SignalId
  active : Bool
  deriving DecidableEq, Repr

/-- The private state of `NgxSmartFormsService`: the three `Map`s plus the
heaps giving signal cells and subscription objects their identity. -/
structure RegistryState where
  initialValuesMap : List (FormKey × Snapshot)
  formChangedMap : List (FormKey × SignalId)
  subscriptions : List (FormKey × SubId)
  signalHeap : List (SignalId × Bool)
  subHeap : List (SubId × SubRec)
  nextSignal : Nat
  nextSub : Nat
  deriving DecidableEq, Repr

/-- The empty registry (a freshly constructed service). -/
def RegistryState.empty : RegistryState := ⟨[], [], [], [], [], 0, 0⟩

/-! ## Association-list primitives (JavaScript `Map` / plain object) -/

/-- First-match lookup, as `Map.get` / property read. -/
def alookup {κ β : Type} [DecidableEq κ] : List (κ × β) → κ → Option β
  | [], _ => none
  | (k', v') :: rest, k => if k = k' then some v' else alookup rest k

/-- `Map.set` / property write: replace the first binding of the key, else
append a new binding. -/
def aset {κ β : Type} [DecidableEq κ] : List (κ × β) → κ → β → List (κ × β)
  | [], k, v => [(k, v)]
  | (k', v') :: rest, k, v =>
      if k = k' then (k, v) :: rest else (k', v') :: aset rest k v

/-- `Map.delete`: remove the first binding of the key, if any. -/
def aerase {κ β : Type} [DecidableEq κ] : List (κ × β) → κ → List (κ × β)
  | [], _ => []
  | (k', v') :: rest, k => if k = k' then rest else (k', v') :: aerase rest k

/-- The keys of a map are pairwise distinct (true of every JavaScript
`Map` and object; our maps only reach such states). -/
def keysNodup {κ β : Type} (l : List (κ × β)) : Prop :=
  (l.map Prod.fst).Nodup

instance {κ β : Type} [DecidableEq κ] (l : List (κ × β)) :
    Decidable (keysNodup l) := by
  unfold keysNodup; infer_instance

/-! ## World (live `FormGroup` objects) helpers -/

/-- Dereference a live form object; an id not in the world behaves as a
form-like object with no controls. -/
def wget (w : World) (id : Nat) : FormState :=
  (alookup w id).getD ⟨[], true⟩

def wset (w : World) (id : Nat) (fs : FormState) : World :=
  aset w id fs

/-- `formGroup.controls` for a non-null reference. -/
def controlsOf (w : World) (id : Nat) : Controls :=
  (wget w id).controls

/-- `formGroup.controls` through a possibly-null reference does not apply;
the null case is handled by the `Except` wrappers.  For event delivery a
null key has no live controls. -/
def controlsOfK (w : World) : FormKey → Controls
  | none => []
  | some id => controlsOf w id

/-- The current value of a named control of a live form, if present. -/
def controlValueAt (w : World) (id : Nat) (n : String) : Option Value :=
  (alookup (controlsOf w id) n).map (fun c => c.value)

/-- `control.setValue(v)` on `controls[n]`: update that control's value in
place; a missing name is untouched (callers guard on presence). -/
def setVal : Controls → String → Value → Controls
  | [], _, _ => []
  | p :: rest, n, v =>
      (if p.1 = n then (p.1, { p.2 with value := v }) else p) :: setVal rest n v

/-! ## Signal and subscription heaps -/

/-- Read a signal cell (`formChanged()`). -/
def readSignal (s : RegistryState) (sid : SignalId) : Bool :=
  ((alookup s.signalHeap sid).getD false)

/-- Write a signal cell (`formChanged.set(b)`). -/
def writeSignal (s : RegistryState) (sid : SignalId) (b : Bool) : RegistryState :=
  { s with signalHeap := aset s.signalHeap sid b }

/-- Whether a subscription object is still active (not unsubscribed). -/
def subActive (s : RegistryState) (sid : SubId) : Bool :=
  ((alookup s.subHeap sid).map (fun r => r.active)).getD false

/-- `sub.unsubscribe()`. -/
def unsubscribe (s : RegistryState) (sid : SubId) : RegistryState :=
  match alookup s.subHeap sid with
  | some r => { s with subHeap := aset s.subHeap sid { r with active := false } }
  | none => s

/-! ## The service methods -/

/-- The snapshot entry captured for one control:
`{ value, disabled, validators: control.validator ? [control.validator] : null }`. -/
def captureControlState (c : Control) : IControlState :=
  ⟨c.value, c.disabled, c.validator.map (fun v => [v])⟩

/-- `getFormChanged`: create a `signal(false)` for the form if absent, and
return the (possibly updated) state together with the signal cell returned
to the caller. -/
def getFormChanged (s : RegistryState) (fg : FormKey) : RegistryState × SignalId :=
  match alookup s.formChangedMap fg with
  | some sid => (s, sid)
  | none =>
      ({ s with
          formChangedMap := aset s.formChangedMap fg s.nextSignal,
          signalHeap := aset s.signalHeap s.nextSignal false,
          nextSignal := s.nextSignal + 1 }, s.nextSignal)

/-- `hasFormChanged` (private diff): false with no snapshot; otherwise some
control present on the live form, having a snapshot entry, whose current
value is strictly unequal to the recorded one. -/
def hasFormChanged (s : RegistryState) (fg : FormKey) (cs : Controls) : Bool :=
  match alookup s.initialValuesMap fg with
  | none => false
  | some init =>
      cs.any (fun p =>
        match alookup init p.1 with
        | none => false
        | some st => decide (p.2.value ≠ st.value))

/-- `captureInitialValues` (private): rebuild the snapshot of every current
control and store it, replacing any previous snapshot wholesale. -/
def captureInitialValues (s : RegistryState) (id : Nat) (cs : Controls) :
    RegistryState :=
  let snap := cs.foldl (fun acc p => aset acc p.1 (captureControlState p.2)) []
  { s with initialValuesMap := aset s.initialValuesMap (some id) snap }

/-- `storeInitialValues` on a non-null form: unsubscribe any prior
subscription, recapture the snapshot, ensure a changed signal exists
(created false only when absent), and install a fresh subscription that on
each value-change event recomputes the diff into that signal. -/
def storeInitialValues (s : RegistryState) (w : World) (id : Nat) :
    RegistryState :=
  let s1 := match alookup s.subscriptions (some id) with
    | some sid => unsubscribe s sid
    | none => s
  let s2 := captureInitialValues s1 id (controlsOf w id)
  let s3 := match alookup s2.formChangedMap (some id) with
    | some _ => s2
    | none =>
        { s2 with
            formChangedMap := aset s2.formChangedMap (some id) s2.nextSignal,
            signalHeap := aset s2.signalHeap s2.nextSignal false,
            nextSignal := s2.nextSignal + 1 }
  let sigId := (alookup s3.formChangedMap (some id)).getD 0
  { s3 with
      subscriptions := aset s3.subscriptions (some id) s3.nextSub,
      subHeap := aset s3.subHeap s3.nextSub ⟨some id, sigId, true⟩,
      nextSub := s3.nextSub + 1 }

/-- `storeInitialValues` on a possibly-null reference: a null form throws a
`TypeError` at `formGroup.controls` inside `captureInitialValues`. -/
def storeInitialValuesE (s : RegistryState) (w : World) (fg : FormKey) :
    Except Unit RegistryState :=
  match fg with
  | none => .error ()
  | some id => .ok (storeInitialValues s w id)

/-- The accumulation loop of `updateInitialValuesForNewControls`: add a
snapshot entry for each control whose name has none yet; existing entries
are never overwritten. -/
def addNewControls (acc : Snapshot) : Controls → Snapshot
  | [] => acc
  | p :: rest =>
      addNewControls
        (match alookup acc p.1 with
         | some _ => acc
         | none => aset acc p.1 (captureControlState p.2)) rest

/-- `updateInitialValuesForNewControls` on a non-null form: start from the
stored snapshot (or empty), add entries for new controls, store back. -/
def updateInitialValuesForNewControls (s : RegistryState) (w : World)
    (id : Nat) : RegistryState :=
  let upd := addNewControls ((alookup s.initialValuesMap (some id)).getD [])
    (controlsOf w id)
  { s with initialValuesMap := aset s.initialValuesMap (some id) upd }

/-- `updateInitialValuesForNewControls` on a possibly-null reference: a
null form throws a `TypeError` at `formGroup.controls`. -/
def updateInitialValuesForNewControlsE (s : RegistryState) (w : World)
    (fg : FormKey) : Except Unit RegistryState :=
  match fg with
  | none => .error ()
  | some id => .ok (updateInitialValuesForNewControls s w id)

/-- One step of the fallback loop of `resetToInitialValues`: if the control
exists, set it to the snapshot value. -/
def fallbackStep (cs : Controls) (p : String × IControlState) : Controls :=
  match alookup cs p.1 with
  | some _ => setVal cs p.1 p.2.value
  | none => cs

/-- `resetToInitialValues`.  `patchFails` says whether the host framework's
bulk `patchValue` call throws; the `try`/`catch` then runs the per-field
fallback.  Both paths end in `markAsPristine`.  A null form with no
snapshot is a no-op; with a snapshot it would dereference null (never
reachable, since registering a null form throws before storing one). -/
def resetToInitialValuesE (patchFails : Bool) (s : RegistryState) (w : World)
    (fg : FormKey) : Except Unit World :=
  match alookup s.initialValuesMap fg with
  | none => .ok w
  | some init =>
      match fg with
      | none => .error ()
      | some id =>
          let fs := wget w id
          let cs1 :=
            if patchFails then
              init.foldl fallbackStep fs.controls
            else
              (init.map (fun p => (p.1, p.2.value))).foldl
                (fun cs q => setVal cs q.1 q.2) fs.controls
          .ok (wset w id { fs with controls := cs1, pristine := true })

/-- One step of `resetControlsToInitialValue`: set the control to its
snapshot value when both the live control and the snapshot entry exist. -/
def resetStep (init : Snapshot) (cs : Controls) (n : String) : Controls :=
  match alookup cs n, alookup init n with
  | some _, some st => setVal cs n st.value
  | _, _ => cs

/-- `resetControlsToInitialValue`: no-op without a snapshot; otherwise set
each listed control to its snapshot value when present on both sides.  A
null form with a snapshot would dereference null on the first listed name
(unreachable in practice). -/
def resetControlsToInitialValueE (s : RegistryState) (w : World)
    (fg : FormKey) (controlNames : List String) : Except Unit World :=
  match alookup s.initialValuesMap fg with
  | none => .ok w
  | some init =>
      match fg with
      | none => if controlNames.isEmpty then .ok w else .error ()
      | some id =>
          let fs := wget w id
          .ok (wset w id
            { fs with controls := controlNames.foldl (resetStep init) fs.controls })

/-- `canDeactivate`: true with no signal entry, else the negation of the
current signal value. -/
def canDeactivate (s : RegistryState) (fg : FormKey) : Bool :=
  match alookup s.formChangedMap fg with
  | none => true
  | some sid => !(readSignal s sid)

/-- `cleanupForm`: unsubscribe and drop the subscription entry if present,
then delete the snapshot and signal entries. -/
def cleanupForm (s : RegistryState) (fg : FormKey) : RegistryState :=
  let s1 := match alookup s.subscriptions fg with
    | some sid =>
        let su := unsubscribe s sid
        { su with subscriptions := aerase su.subscriptions fg }
    | none => s
  { s1 with
      initialValuesMap := aerase s1.initialValuesMap fg,
      formChangedMap := aerase s1.formChangedMap fg }

/-- `clearAll` (via `ngOnDestroy`): clear the snapshot and signal tables,
unsubscribe every tracked subscription, clear the subscription table. -/
def clearAll (s : RegistryState) : RegistryState :=
  { s with
      initialValuesMap := [],
      formChangedMap := [],
      subHeap := s.subHeap.map (fun p =>
        if s.subscriptions.any (fun q => q.2 = p.1) then
          (p.1, { p.2 with active := false })
        else p),
      subscriptions := [] }

/-- Delivery of one `valueChanges` event of form `fg`: every still-active
subscription observing `fg` recomputes the diff against the live controls
and writes it into the signal it closes over. -/
def deliverValueChange (s : RegistryState) (w : World) (fg : FormKey) :
    RegistryState :=
  s.subHeap.foldl (fun acc p =>
    if p.2.form = fg ∧ p.2.active = true then
      writeSignal acc p.2.sig (hasFormChanged acc fg (controlsOfK w fg))
    else acc) s

/-! ## Component lemmas for `storeInitialValues` -/

/-- The snapshot built by `captureInitialValues` from the current controls. -/
def snapOf (cs : Controls) : Snapshot :=
  cs.foldl (fun acc p => aset acc p.1 (captureControlState p.2)) []

def c1State : RegistryState :=
  { RegistryState.empty with
      initialValuesMap := [(some 0, [("name", ⟨10, false, none⟩)])] }

/-! ## C2 — signal after registration -/

def regW0 : World := [(0, ⟨[("name", ⟨10, false, none⟩)], true⟩)]

def regW1 : World := [(0, ⟨[("name", ⟨20, false, none⟩)], true⟩)]

/-- The registry after: register form 0 (value 10), one value-change event
with value 20 (signal becomes true), then register form 0 again. -/
def reregState : RegistryState :=
  storeInitialValues
    (deliverValueChange (storeInitialValues RegistryState.empty regW0 0)
      regW1 (some 0))
    regW1 0

/-- The world produced by restoring form 0 of `regW1` from the snapshot of
`c1State`. -/
def resetW2 : World := [(0, ⟨[("name", ⟨10, false, none⟩)], true⟩)]

/-! ## C10 — per-form isolation -/

/-- Everything the registry records about one form: its snapshot, its
signal-cell identity and current value, and its subscription identity and
active status. -/
def obsOf (s : RegistryState) (g : FormKey) :
    Option Snapshot × Option SignalId × Option SubId × Option Bool ×
      Option Bool :=
  (alookup s.initialValuesMap g, alookup s.formChangedMap g,
   alookup s.subscriptions g,
   (alookup s.formChangedMap g).map (readSignal s),
   (alookup s.subscriptions g).map (subActive s))

/-- States reachable through the service API: allocated ids are below the
allocation counters, and distinct forms hold distinct subscriptions. -/
def WF (s : RegistryState) : Prop :=
  (∀ p ∈ s.formChangedMap, p.2 < s.nextSignal) ∧
  (∀ p ∈ s.subscriptions, p.2 < s.nextSub) ∧
  (∀ p ∈ s.subscriptions, ∀ q ∈ s.subscriptions, p.2 = q.2 → p.1 = q.1)

instance (s : RegistryState) : Decidable (WF s) := by
  unfold WF
  infer_instance

theorem alookup_aset_self {κ β : Type} [DecidableEq κ]
    (l : List (κ × β)) (k : κ) (v : β) : alookup (aset l k v) k = some v := by
  induction l with
  | nil => simp [aset, alookup]
  | cons p rest ih =>
      by_cases h : k = p.1
      · simp [aset, alookup, h]
      · simp [aset, alookup, h, ih]

theorem alookup_aset_ne {κ β : Type} [DecidableEq κ]
    (l : List (κ × β)) (k m : κ) (v : β) (h : m ≠ k) :
    alookup (aset l k v) m = alookup l m := by
  induction l with
  | nil => simp [aset, alookup, h]
  | cons p rest ih =>
      by_cases hk : k = p.1
      · subst hk
        simp [aset, alookup, h]
      · by_cases hm : m = p.1
        · simp [aset, alookup, hk, hm]
        · simp [aset, alookup, hk, hm, ih]

theorem alookup_aerase_ne {κ β : Type} [DecidableEq κ]
    (l : List (κ × β)) (k m : κ) (h : m ≠ k) :
    alookup (aerase l k) m = alookup l m := by
  induction l with
  | nil => simp [aerase]
  | cons p rest ih =>
      by_cases hk : k = p.1
      · subst hk
        simp [aerase, alookup, h]
      · by_cases hm : m = p.1
        · simp [aerase, alookup, hk, hm]
        · simp [aerase, alookup, hk, hm, ih]

theorem alookup_aerase_self {κ β : Type} [DecidableEq κ]
    (l : List (κ × β)) (k : κ) (hnd : keysNodup l) :
    alookup (aerase l k) k = none := by
  induction l with
  | nil => simp [aerase, alookup]
  | cons p rest ih =>
      unfold keysNodup at hnd
      simp only [List.map_cons, List.nodup_cons] at hnd
      by_cases hk : k = p.1
      · subst hk
        simp only [aerase, if_pos rfl]
        cases hmem : alookup rest p.1 with
        | none => exact hmem
        | some v =>
            exfalso
            apply hnd.1
            clear ih hnd
            induction rest with
            | nil => simp [alookup] at hmem
            | cons q qs ihq =>
                simp only [alookup] at hmem
                by_cases hq : p.1 = q.1
                · simp [hq]
                · simp only [if_neg hq] at hmem
                  simp [ihq hmem]
      · simp [aerase, alookup, hk, ih hnd.2]

theorem alookup_mem {κ β : Type} [DecidableEq κ]
    {l : List (κ × β)} {k : κ} {v : β} (h : alookup l k = some v) :
    (k, v) ∈ l := by
  induction l with
  | nil => simp [alookup] at h
  | cons p rest ih =>
      obtain ⟨a, b⟩ := p
      simp only [alookup] at h
      by_cases hk : k = a
      · simp only [if_pos hk] at h
        subst hk
        rw [← Option.some_inj.mp h]
        exact List.mem_cons_self _ _
      · simp only [if_neg hk] at h
        exact List.mem_cons_of_mem _ (ih h)

theorem mem_alookup {κ β : Type} [DecidableEq κ]
    {l : List (κ × β)} {k : κ} {v : β} (hnd : keysNodup l) (h : (k, v) ∈ l) :
    alookup l k = some v := by
  induction l with
  | nil => simp at h
  | cons p rest ih =>
      unfold keysNodup at hnd
      simp only [List.map_cons, List.nodup_cons] at hnd
      rcases List.mem_cons.mp h with heq | hmem
      · cases heq; simp [alookup]
      · have hk : k ≠ p.1 := by
          intro hkp
          exact hnd.1 (hkp ▸ (List.mem_map.mpr ⟨(k, v), hmem, rfl⟩))
        simp [alookup, hk, ih hnd.2 hmem]

/-! ## Further map lemmas -/

theorem alookup_eq_none_of_not_mem_keys {κ β : Type} [DecidableEq κ]
    {l : List (κ × β)} {k : κ} (h : k ∉ l.map Prod.fst) : alookup l k = none := by
  induction l with
  | nil => rfl
  | cons p rest ih =>
      simp only [List.map_cons, List.mem_cons] at h
      push_neg at h
      simp [alookup, h.1, ih h.2]

theorem aerase_of_alookup_none {κ β : Type} [DecidableEq κ]
    {l : List (κ × β)} {k : κ} (h : alookup l k = none) : aerase l k = l := by
  induction l with
  | nil => rfl
  | cons p rest ih =>
      simp only [alookup] at h
      by_cases hk : k = p.1
      · simp [hk] at h
      · simp only [if_neg hk] at h
        simp [aerase, hk, ih h]

theorem mem_aset_cases {κ β : Type} [DecidableEq κ]
    {l : List (κ × β)} {k : κ} {v : β} {p : κ × β}
    (hnd : keysNodup l) (hp : p ∈ aset l k v) :
    p = (k, v) ∨ (p ∈ l ∧ p.1 ≠ k) := by
  induction l with
  | nil => simp [aset] at hp; left; exact hp
  | cons q rest ih =>
      unfold keysNodup at hnd
      simp only [List.map_cons, List.nodup_cons] at hnd
      by_cases hk : k = q.1
      · subst hk
        simp [aset] at hp
        rcases hp with hp | hp
        · left; exact hp
        · right
          refine ⟨List.mem_cons_of_mem _ hp, fun hcontra => ?_⟩
          exact hnd.1 (hcontra ▸ (List.mem_map.mpr ⟨p, hp, rfl⟩))
      · simp only [aset, if_neg hk, List.mem_cons] at hp
        rcases hp with hp | hp
        · right
          subst hp
          exact ⟨List.mem_cons_self _ _, fun hcontra => hk hcontra.symm⟩
        · rcases ih hnd.2 hp with h1 | h1
          · left; exact h1
          · right; exact ⟨List.mem_cons_of_mem _ h1.1, h1.2⟩

theorem alookup_map_snd {κ β γ : Type} [DecidableEq κ]
    (l : List (κ × β)) (f : β → γ) (k : κ) :
    alookup (l.map (fun p => (p.1, f p.2))) k = (alookup l k).map f := by
  induction l with
  | nil => rfl
  | cons p rest ih =>
      by_cases hk : k = p.1
      · simp [alookup, hk]
      · simp [alookup, hk, ih]

theorem storeInitialValues_initialValuesMap (s : RegistryState) (w : World)
    (id : Nat) :
    (storeInitialValues s w id).initialValuesMap =
      aset s.initialValuesMap (some id) (snapOf (controlsOf w id)) := by
  unfold storeInitialValues captureInitialValues unsubscribe snapOf
  cases hsub : alookup s.subscriptions (some id) with
  | none =>
      cases hsig : alookup s.formChangedMap (some id) <;> simp [hsig]
  | some fsub =>
      cases hh : alookup s.subHeap fsub <;>
        cases hsig : alookup s.formChangedMap (some id) <;> simp [hh, hsig]

theorem storeInitialValues_formChangedMap (s : RegistryState) (w : World)
    (id : Nat) :
    (storeInitialValues s w id).formChangedMap =
      match alookup s.formChangedMap (some id) with
      | some _ => s.formChangedMap
      | none => aset s.formChangedMap (some id) s.nextSignal := by
  unfold storeInitialValues captureInitialValues unsubscribe
  cases hsub : alookup s.subscriptions (some id) with
  | none =>
      cases hsig : alookup s.formChangedMap (some id) <;> simp [hsig]
  | some fsub =>
      cases hh : alookup s.subHeap fsub <;>
        cases hsig : alookup s.formChangedMap (some id) <;> simp [hh, hsig]

theorem storeInitialValues_signalHeap (s : RegistryState) (w : World)
    (id : Nat) :
    (storeInitialValues s w id).signalHeap =
      match alookup s.formChangedMap (some id) with
      | some _ => s.signalHeap
      | none => aset s.signalHeap s.nextSignal false := by
  unfold storeInitialValues captureInitialValues unsubscribe
  cases hsub : alookup s.subscriptions (some id) with
  | none =>
      cases hsig : alookup s.formChangedMap (some id) <;> simp [hsig]
  | some fsub =>
      cases hh : alookup s.subHeap fsub <;>
        cases hsig : alookup s.formChangedMap (some id) <;> simp [hh, hsig]

theorem storeInitialValues_subscriptions (s : RegistryState) (w : World)
    (id : Nat) :
    (storeInitialValues s w id).subscriptions =
      aset s.subscriptions (some id) s.nextSub := by
  unfold storeInitialValues captureInitialValues unsubscribe
  cases hsub : alookup s.subscriptions (some id) with
  | none =>
      cases hsig : alookup s.formChangedMap (some id) <;> simp [hsig]
  | some fsub =>
      cases hh : alookup s.subHeap fsub <;>
        cases hsig : alookup s.formChangedMap (some id) <;> simp [hh, hsig]

theorem storeInitialValues_subHeap (s : RegistryState) (w : World)
    (id : Nat) :
    ∃ sigId,
      (storeInitialValues s w id).subHeap =
        aset (match alookup s.subscriptions (some id) with
              | some fsub => (unsubscribe s fsub).subHeap
              | none => s.subHeap)
          s.nextSub ⟨some id, sigId, true⟩ := by
  unfold storeInitialValues captureInitialValues
  cases hsub : alookup s.subscriptions (some id) with
  | none =>
      cases hsig : alookup s.formChangedMap (some id) with
      | none => exact ⟨s.nextSignal, by simp [hsig, alookup_aset_self]⟩
      | some sid => exact ⟨sid, by simp [hsig]⟩
  | some fsub =>
      unfold unsubscribe
      cases hh : alookup s.subHeap fsub with
      | none =>
          cases hsig : alookup s.formChangedMap (some id) with
          | none => exact ⟨s.nextSignal, by simp [hh, hsig, alookup_aset_self]⟩
          | some sid => exact ⟨sid, by simp [hh, hsig]⟩
      | some r =>
          cases hsig : alookup s.formChangedMap (some id) with
          | none => exact ⟨s.nextSignal, by simp [hh, hsig, alookup_aset_self]⟩
          | some sid => exact ⟨sid, by simp [hh, hsig]⟩

theorem alookup_cons {κ β : Type} [DecidableEq κ] (p : κ × β)
    (rest : List (κ × β)) (k : κ) :
    alookup (p :: rest) k = if k = p.1 then some p.2 else alookup rest k := by
  cases p; rfl

/-! ## C1 — the internal diff -/

/-- C1: `hasFormChanged` returns false when no snapshot is stored for the
form; otherwise it ranges over the field names present on the live form,
skips any name with no snapshot entry (so a field added after registration
and never captured can never make the result true), and reports changed iff
some non-skipped field's current value is strictly unequal to its snapshot
value. -/
theorem hasFormChanged_spec (s : RegistryState) (fg : FormKey) (cs : Controls) :
    (alookup s.initialValuesMap fg = none → hasFormChanged s fg cs = false) ∧
    (∀ init, alookup s.initialValuesMap fg = some init →
      ((hasFormChanged s fg cs = true ↔
          ∃ p ∈ cs, ∃ st, alookup init p.1 = some st ∧ p.2.value ≠ st.value) ∧
        ∀ n c, alookup init n = none →
          hasFormChanged s fg ((n, c) :: cs) = hasFormChanged s fg cs)) := by
  constructor
  · intro h
    simp [hasFormChanged, h]
  · intro init hinit
    constructor
    · simp only [hasFormChanged, hinit, List.any_eq_true]
      constructor
      · rintro ⟨p, hp, hpred⟩
        refine ⟨p, hp, ?_⟩
        cases hst : alookup init p.1 with
        | none => rw [hst] at hpred; simp at hpred
        | some st =>
            rw [hst] at hpred
            exact ⟨st, rfl, by simpa using hpred⟩
      · rintro ⟨p, hp, st, hst, hne⟩
        refine ⟨p, hp, ?_⟩
        rw [hst]
        simpa using hne
    · intro n c hn
      simp [hasFormChanged, hinit, hn, alookup_cons]

theorem hasFormChanged_spec_witness :
    hasFormChanged c1State (some 0)
      [("name", ⟨11, false, none⟩), ("extra", ⟨99, false, none⟩)] = true :=
  ((hasFormChanged_spec c1State (some 0)
      [("name", ⟨11, false, none⟩), ("extra", ⟨99, false, none⟩)]).2
    [("name", ⟨10, false, none⟩)] rfl).1.mpr
    ⟨("name", ⟨11, false, none⟩), by simp, ⟨10, false, none⟩, rfl, by decide⟩

/-! ## C5 — the deactivation guard -/

/-- C5: `canDeactivate` is true whenever no changed signal exists for the
form (in particular for the null reference or any never-registered form),
and otherwise is exactly the negation of the current signal value; it
always equals the negation of what `getFormChanged` would currently read. -/
theorem canDeactivate_spec (s : RegistryState) (fg : FormKey) :
    (alookup s.formChangedMap fg = none → canDeactivate s fg = true) ∧
    (∀ sid, alookup s.formChangedMap fg = some sid →
      canDeactivate s fg = !readSignal s sid) ∧
    canDeactivate s fg =
      !readSignal (getFormChanged s fg).1 (getFormChanged s fg).2 := by
  refine ⟨fun h => by simp [canDeactivate, h],
    fun sid h => by simp [canDeactivate, h], ?_⟩
  cases h : alookup s.formChangedMap fg with
  | some sid => simp [canDeactivate, getFormChanged, h]
  | none =>
      simp [canDeactivate, getFormChanged, h, readSignal, alookup_aset_self]

theorem canDeactivate_spec_witness :
    canDeactivate RegistryState.empty none = true :=
  (canDeactivate_spec RegistryState.empty none).1 rfl

/-- C2 counterexample: immediately after the re-registration, with no
further mutation or event, the changed signal still reads true (and
`canDeactivate` is false), contradicting the claim that `changedSignal(f)`
reads false after every `register(f)`. -/
theorem register_reset_signal_cex :
    readSignal reregState (getFormChanged reregState (some 0)).2 = true ∧
    canDeactivate reregState (some 0) = false := by
  constructor <;> rfl

/-- C2 amended: after `register(f)` the changed signal reads false provided
any pre-existing signal for `f` already read false — in particular on first
registration.  Re-registration reuses the signal cell without writing it,
so a signal reading true keeps reading true until the next value-change
event. -/
theorem register_signal_false (s : RegistryState) (w : World) (id : Nat)
    (h : ∀ sid, alookup s.formChangedMap (some id) = some sid →
      readSignal s sid = false) :
    readSignal (storeInitialValues s w id)
      (getFormChanged (storeInitialValues s w id) (some id)).2 = false := by
  have hf := storeInitialValues_formChangedMap s w id
  have hs := storeInitialValues_signalHeap s w id
  cases hsig : alookup s.formChangedMap (some id) with
  | some sid =>
      simp only [hsig] at hf hs
      have hl : alookup (storeInitialValues s w id).formChangedMap (some id) =
          some sid := by rw [hf]; exact hsig
      have h2 : (getFormChanged (storeInitialValues s w id) (some id)).2 = sid := by
        simp [getFormChanged, hl]
      rw [h2]
      unfold readSignal
      rw [hs]
      exact h sid hsig
  | none =>
      simp only [hsig] at hf hs
      have hl : alookup (storeInitialValues s w id).formChangedMap (some id) =
          some s.nextSignal := by rw [hf]; exact alookup_aset_self _ _ _
      have h2 : (getFormChanged (storeInitialValues s w id) (some id)).2 =
          s.nextSignal := by simp [getFormChanged, hl]
      rw [h2]
      unfold readSignal
      rw [hs, alookup_aset_self]
      rfl

theorem register_signal_false_witness :
    readSignal (storeInitialValues RegistryState.empty regW0 0)
      (getFormChanged (storeInitialValues RegistryState.empty regW0 0)
        (some 0)).2 = false :=
  register_signal_false RegistryState.empty regW0 0
    (fun sid h => by cases h)

/-! ## C3 — error-freedom of the public surface -/

/-- C3 counterexample: `register` (`storeInitialValues`) and
`captureNewFields` (`updateInitialValuesForNewControls`) raise a
`TypeError` on a null form, at `formGroup.controls`. -/
theorem null_register_raises_cex :
    storeInitialValuesE RegistryState.empty regW0 none = .error () ∧
    updateInitialValuesForNewControlsE RegistryState.empty regW0 none =
      .error () :=
  ⟨rfl, rfl⟩

/-- C3 amended: every operation completes or silently no-ops on a non-null
form; on a null form, `resetAll` and `resetFields` still complete (given
that no snapshot is stored under the null key — true in every reachable
state, since registering null throws before storing), and `changedSignal`,
`canDeactivate`, `releaseForm` and `teardownAll` are total functions of the
model; but `register` and `captureNewFields` raise a `TypeError` on null. -/
theorem ops_no_raise_amended (s : RegistryState) (w : World) (id : Nat)
    (names : List String) (b : Bool) (fg : FormKey)
    (hnull : alookup s.initialValuesMap none = none) :
    (∃ s2, storeInitialValuesE s w (some id) = .ok s2) ∧
    (∃ s2, updateInitialValuesForNewControlsE s w (some id) = .ok s2) ∧
    (∃ w2, resetToInitialValuesE b s w fg = .ok w2) ∧
    (∃ w2, resetControlsToInitialValueE s w fg names = .ok w2) ∧
    storeInitialValuesE s w none = .error () ∧
    updateInitialValuesForNewControlsE s w none = .error () := by
  refine ⟨⟨_, rfl⟩, ⟨_, rfl⟩, ?_, ?_, rfl, rfl⟩
  · cases fg with
    | none => exact ⟨w, by simp [resetToInitialValuesE, hnull]⟩
    | some id2 =>
        cases h : alookup s.initialValuesMap (some id2) with
        | none => exact ⟨w, by simp [resetToInitialValuesE, h]⟩
        | some init =>
            cases hr : resetToInitialValuesE b s w (some id2) with
            | ok w2 => exact ⟨w2, rfl⟩
            | error e => simp [resetToInitialValuesE, h] at hr
  · cases fg with
    | none => exact ⟨w, by simp [resetControlsToInitialValueE, hnull]⟩
    | some id2 =>
        cases h : alookup s.initialValuesMap (some id2) with
        | none => exact ⟨w, by simp [resetControlsToInitialValueE, h]⟩
        | some init =>
            cases hr : resetControlsToInitialValueE s w (some id2) names with
            | ok w2 => exact ⟨w2, rfl⟩
            | error e => simp [resetControlsToInitialValueE, h] at hr

theorem ops_no_raise_amended_witness :
    storeInitialValuesE RegistryState.empty regW0 none = .error () :=
  (ops_no_raise_amended RegistryState.empty regW0 0 [] true none rfl).2.2.2.2.1

/-! ## C9 — stability of the changed-signal cell -/

/-- C9: `getFormChanged` creates a cell initialized to false only when none
exists (touching neither snapshot nor subscription state), repeated calls
return the identical cell with no further state change, and
`storeInitialValues` reuses a pre-existing cell — same identity, value
untouched — rather than replacing it. -/
theorem changedSignal_cell_stable (s : RegistryState) (w : World)
    (fg : FormKey) (id : Nat) :
    (∀ sid, alookup s.formChangedMap fg = some sid →
      getFormChanged s fg = (s, sid)) ∧
    (alookup s.formChangedMap fg = none →
      ((getFormChanged s fg).1.initialValuesMap = s.initialValuesMap ∧
       (getFormChanged s fg).1.subscriptions = s.subscriptions ∧
       (getFormChanged s fg).1.subHeap = s.subHeap ∧
       alookup (getFormChanged s fg).1.formChangedMap fg =
         some (getFormChanged s fg).2 ∧
       readSignal (getFormChanged s fg).1 (getFormChanged s fg).2 = false)) ∧
    getFormChanged (getFormChanged s fg).1 fg =
      ((getFormChanged s fg).1, (getFormChanged s fg).2) ∧
    (∀ sid, alookup s.formChangedMap (some id) = some sid →
      (alookup (storeInitialValues s w id).formChangedMap (some id) = some sid ∧
       readSignal (storeInitialValues s w id) sid = readSignal s sid)) := by
  refine ⟨fun sid h => by simp [getFormChanged, h], ?_, ?_, ?_⟩
  · intro h
    simp [getFormChanged, h, readSignal, alookup_aset_self]
  · cases h : alookup s.formChangedMap fg with
    | some sid => simp [getFormChanged, h]
    | none => simp [getFormChanged, h, alookup_aset_self]
  · intro sid h
    have hf := storeInitialValues_formChangedMap s w id
    have hs := storeInitialValues_signalHeap s w id
    simp only [h] at hf hs
    exact ⟨by rw [hf]; exact h, by unfold readSignal; rw [hs]⟩

theorem changedSignal_cell_stable_witness :
    alookup (storeInitialValues reregState regW1 0).formChangedMap (some 0) =
      some 0 ∧
    readSignal (storeInitialValues reregState regW1 0) 0 =
      readSignal reregState 0 :=
  (changedSignal_cell_stable reregState regW1 (some 0) 0).2.2.2 0 rfl

/-! ## C8 — captureNewFields adds without overwriting -/

theorem addNewControls_preserves (cs : Controls) (acc : Snapshot)
    (n : String) (st : IControlState) (h : alookup acc n = some st) :
    alookup (addNewControls acc cs) n = some st := by
  induction cs generalizing acc with
  | nil => exact h
  | cons p rest ih =>
      rw [addNewControls]
      cases hacc : alookup acc p.1 with
      | some v => simp only [hacc]; exact ih _ h
      | none =>
          simp only [hacc]
          have hne : n ≠ p.1 := by
            intro he
            rw [he, hacc] at h
            simp at h
          exact ih _ (by rw [alookup_aset_ne _ _ _ _ hne]; exact h)

theorem addNewControls_adds (cs : Controls) (acc : Snapshot) (n : String)
    (c : Control) (h1 : alookup cs n = some c) (h2 : alookup acc n = none) :
    alookup (addNewControls acc cs) n = some (captureControlState c) := by
  induction cs generalizing acc with
  | nil => simp [alookup] at h1
  | cons p rest ih =>
      rw [alookup_cons] at h1
      rw [addNewControls]
      by_cases hn : n = p.1
      · rw [if_pos hn] at h1
        obtain rfl : c = p.2 := (Option.some_inj.mp h1).symm
        have hacc : alookup acc p.1 = none := hn ▸ h2
        simp only [hacc]
        exact addNewControls_preserves rest _ n _
          (by rw [hn]; exact alookup_aset_self _ _ _)
      · rw [if_neg hn] at h1
        cases hacc : alookup acc p.1 with
        | some v => simp only [hacc]; exact ih _ h1 h2
        | none =>
            simp only [hacc]
            exact ih _ h1 (by rw [alookup_aset_ne _ _ _ _ hn]; exact h2)

theorem addNewControls_not_added (cs : Controls) (acc : Snapshot) (n : String)
    (h1 : alookup acc n = none) (h2 : alookup cs n = none) :
    alookup (addNewControls acc cs) n = none := by
  induction cs generalizing acc with
  | nil => exact h1
  | cons p rest ih =>
      rw [alookup_cons] at h2
      by_cases hn : n = p.1
      · rw [if_pos hn] at h2; simp at h2
      · rw [if_neg hn] at h2
        rw [addNewControls]
        cases hacc : alookup acc p.1 with
        | some v => simp only [hacc]; exact ih _ h1 h2
        | none =>
            simp only [hacc]
            exact ih _ (by rw [alookup_aset_ne _ _ _ _ hn]; exact h1) h2

/-- C8: `updateInitialValuesForNewControls` stores a snapshot that keeps
every existing entry unchanged (even if the live value now differs), adds a
freshly captured entry (value, disabled, validators) for every live field
absent from the snapshot — starting from the empty snapshot when none was
stored — adds nothing else, and neither creates a signal nor installs an
observation. -/
theorem captureNewFields_spec (s : RegistryState) (w : World) (id : Nat) :
    ∃ upd,
      alookup (updateInitialValuesForNewControls s w id).initialValuesMap
        (some id) = some upd ∧
      (∀ n st,
        alookup ((alookup s.initialValuesMap (some id)).getD []) n = some st →
        alookup upd n = some st) ∧
      (∀ n c, alookup (controlsOf w id) n = some c →
        alookup ((alookup s.initialValuesMap (some id)).getD []) n = none →
        alookup upd n = some (captureControlState c)) ∧
      (∀ n,
        alookup ((alookup s.initialValuesMap (some id)).getD []) n = none →
        alookup (controlsOf w id) n = none → alookup upd n = none) ∧
      (updateInitialValuesForNewControls s w id).formChangedMap =
        s.formChangedMap ∧
      (updateInitialValuesForNewControls s w id).subscriptions =
        s.subscriptions ∧
      (updateInitialValuesForNewControls s w id).signalHeap = s.signalHeap ∧
      (updateInitialValuesForNewControls s w id).subHeap = s.subHeap := by
  refine ⟨addNewControls ((alookup s.initialValuesMap (some id)).getD [])
      (controlsOf w id), ?_, ?_, ?_, ?_, rfl, rfl, rfl, rfl⟩
  · simp [updateInitialValuesForNewControls, alookup_aset_self]
  · exact fun n st h => addNewControls_preserves _ _ _ _ h
  · exact fun n c h1 h2 => addNewControls_adds _ _ _ _ h1 h2
  · exact fun n h1 h2 => addNewControls_not_added _ _ _ h1 h2

theorem captureNewFields_spec_witness :
    alookup (updateInitialValuesForNewControls c1State regW1 0).initialValuesMap
        (some 0) = some [("name", ⟨10, false, none⟩)] ∧
    alookup [("name", (⟨10, false, none⟩ : IControlState))] "name" =
      some ⟨10, false, none⟩ := by
  obtain ⟨upd, hu, hpres, _, _, _, _, _, _⟩ :=
    captureNewFields_spec c1State regW1 0
  have h2 : alookup
      (updateInitialValuesForNewControls c1State regW1 0).initialValuesMap
      (some 0) = some [("name", ⟨10, false, none⟩)] := rfl
  rw [hu] at h2
  have hupd : upd = [("name", ⟨10, false, none⟩)] := by
    injection h2
  subst hupd
  exact ⟨hu, hpres "name" ⟨10, false, none⟩ rfl⟩

/-! ## C4 — resetAll -/

theorem wget_wset_self (w : World) (id : Nat) (fs : FormState) :
    wget (wset w id fs) id = fs := by
  unfold wget wset
  rw [alookup_aset_self]
  rfl

theorem alookup_setVal (cs : Controls) (n m : String) (v : Value) :
    alookup (setVal cs n v) m =
      if m = n then (alookup cs m).map (fun c => { c with value := v })
      else alookup cs m := by
  induction cs with
  | nil => by_cases hm : m = n <;> simp [setVal, alookup, hm]
  | cons p rest ih =>
      rw [setVal]
      by_cases hpn : p.1 = n
      · by_cases hm : m = p.1
        · have hmn : m = n := by rw [hm, hpn]
          simp [alookup_cons, hpn, hm, hmn]
        · have hlhs : alookup
              ((p.1, { p.2 with value := v }) :: setVal rest n v) m =
              alookup (setVal rest n v) m := by
            rw [alookup_cons, if_neg hm]
          rw [if_pos hpn, hlhs, ih, alookup_cons, if_neg hm]
      · by_cases hm : m = p.1
        · have hmn : m ≠ n := fun he => hpn (hm ▸ he)
          rw [if_neg hpn, alookup_cons, if_pos hm, if_neg hmn,
            alookup_cons, if_pos hm]
        · rw [if_neg hpn, alookup_cons, if_neg hm, ih, alookup_cons,
            if_neg hm]

theorem fallbackStep_alookup (cs : Controls) (p : String × IControlState)
    (m : String) :
    alookup (fallbackStep cs p) m =
      if m = p.1 then
        (alookup cs m).map (fun c => { c with value := p.2.value })
      else alookup cs m := by
  unfold fallbackStep
  cases hc : alookup cs p.1 with
  | some c0 => rw [alookup_setVal]
  | none =>
      by_cases hm : m = p.1
      · rw [if_pos hm, hm, hc]; rfl
      · rw [if_neg hm]

theorem vmap_idem (o : Option Control) (v : Value) :
    ((o.map (fun c => { c with value := v })).map
        (fun c => { c with value := v })) =
      o.map (fun c => { c with value := v }) := by
  cases o <;> rfl

theorem alookup_fallbackFold (init : Snapshot) (cs : Controls) (m : String)
    (hnd : keysNodup init) :
    alookup (init.foldl fallbackStep cs) m =
      match alookup init m with
      | some st => (alookup cs m).map (fun c => { c with value := st.value })
      | none => alookup cs m := by
  induction init generalizing cs with
  | nil => simp [alookup]
  | cons p rest ih =>
      unfold keysNodup at hnd
      simp only [List.map_cons, List.nodup_cons] at hnd
      rw [List.foldl_cons, ih _ hnd.2, alookup_cons]
      by_cases hm : m = p.1
      · have hrest : alookup rest m = none :=
          alookup_eq_none_of_not_mem_keys (by rw [hm]; exact hnd.1)
        simp only [hrest, if_pos hm, fallbackStep_alookup]
      · simp only [if_neg hm, fallbackStep_alookup]

theorem alookup_patchFold (pairs : List (String × Value)) (cs : Controls)
    (m : String) (hnd : keysNodup pairs) :
    alookup (pairs.foldl (fun cs q => setVal cs q.1 q.2) cs) m =
      match alookup pairs m with
      | some v => (alookup cs m).map (fun c => { c with value := v })
      | none => alookup cs m := by
  induction pairs generalizing cs with
  | nil => simp [alookup]
  | cons p rest ih =>
      unfold keysNodup at hnd
      simp only [List.map_cons, List.nodup_cons] at hnd
      rw [List.foldl_cons, ih _ hnd.2, alookup_cons]
      by_cases hm : m = p.1
      · have hrest : alookup rest m = none :=
          alookup_eq_none_of_not_mem_keys (by rw [hm]; exact hnd.1)
        simp only [hrest, if_pos hm, alookup_setVal]
      · simp only [if_neg hm, alookup_setVal]

theorem keysNodup_map_snd {β γ : Type} (l : List (String × β)) (f : β → γ)
    (hnd : keysNodup l) : keysNodup (l.map (fun p => (p.1, f p.2))) := by
  unfold keysNodup at hnd ⊢
  rw [List.map_map]
  exact hnd

/-- C4: `resetToInitialValues` is a no-op without a snapshot; otherwise —
for either outcome of the bulk `patchValue` attempt (`b` true means the
bulk call threw and the per-field fallback ran) — it completes without
error, marks the form pristine, restores every snapshot field present on
the live form to its snapshot value, and leaves fields without a snapshot
entry (or absent from the live form) unchanged. -/
theorem resetAll_spec (b : Bool) (s : RegistryState) (w : World) (id : Nat)
    (hnd : ∀ init, alookup s.initialValuesMap (some id) = some init →
      keysNodup init) :
    (alookup s.initialValuesMap (some id) = none →
      resetToInitialValuesE b s w (some id) = .ok w) ∧
    (∀ init, alookup s.initialValuesMap (some id) = some init →
      ∃ w2, resetToInitialValuesE b s w (some id) = .ok w2 ∧
        (wget w2 id).pristine = true ∧
        (∀ n st, alookup init n = some st → (controlValueAt w id n).isSome →
          controlValueAt w2 id n = some st.value) ∧
        (∀ n st, alookup init n = some st → controlValueAt w id n = none →
          controlValueAt w2 id n = none) ∧
        (∀ n, alookup init n = none →
          controlValueAt w2 id n = controlValueAt w id n)) := by
  constructor
  · intro h
    simp [resetToInitialValuesE, h]
  · intro init hinit
    have hndi := hnd init hinit
    cases hr : resetToInitialValuesE b s w (some id) with
    | error e => simp [resetToInitialValuesE, hinit] at hr
    | ok w2 =>
        simp only [resetToInitialValuesE, hinit] at hr
        have hv : ∀ m,
            alookup (if b = true then
                init.foldl fallbackStep (wget w id).controls
              else
                (init.map (fun p => (p.1, p.2.value))).foldl
                  (fun cs q => setVal cs q.1 q.2) (wget w id).controls) m =
              match alookup init m with
              | some st => (alookup (wget w id).controls m).map
                  (fun c => { c with value := st.value })
              | none => alookup (wget w id).controls m := by
          intro m
          cases b with
          | true =>
              rw [if_pos rfl]
              exact alookup_fallbackFold init _ m hndi
          | false =>
              rw [if_neg (by simp)]
              rw [alookup_patchFold _ _ _
                (keysNodup_map_snd init (fun st => st.value) hndi)]
              rw [alookup_map_snd]
              cases alookup init m <;> rfl
        have hw2 : w2 = wset w id
            { controls := (if b = true then
                init.foldl fallbackStep (wget w id).controls
              else
                (init.map (fun p => (p.1, p.2.value))).foldl
                  (fun cs q => setVal cs q.1 q.2) (wget w id).controls),
              pristine := true } := by
          injection hr with hr2
          exact hr2.symm
        refine ⟨w2, rfl, ?_, ?_, ?_, ?_⟩
        · rw [hw2, wget_wset_self]
        · intro n st hst hsome
          rw [hw2]
          unfold controlValueAt controlsOf
          rw [wget_wset_self]
          rw [hv n]
          simp only [hst]
          unfold controlValueAt controlsOf at hsome
          cases hc : alookup (wget w id).controls n with
          | none => rw [hc] at hsome; simp at hsome
          | some c0 => simp [hc]
        · intro n st hst hnone
          rw [hw2]
          unfold controlValueAt controlsOf
          rw [wget_wset_self]
          rw [hv n]
          simp only [hst]
          unfold controlValueAt controlsOf at hnone
          cases hc : alookup (wget w id).controls n with
          | none => rfl
          | some c0 => rw [hc] at hnone; simp at hnone
        · intro n hst
          rw [hw2]
          unfold controlValueAt controlsOf
          rw [wget_wset_self]
          rw [hv n]
          simp only [hst]

/-! ## C6 — selective reset -/

theorem resetStep_alookup (init : Snapshot) (cs : Controls) (n m : String) :
    alookup (resetStep init cs n) m =
      match alookup init n with
      | some st =>
          if m = n then
            (alookup cs m).map (fun c => { c with value := st.value })
          else alookup cs m
      | none => alookup cs m := by
  unfold resetStep
  cases hi : alookup init n with
  | none => cases hc : alookup cs n <;> rfl
  | some st =>
      cases hc : alookup cs n with
      | some c0 => exact alookup_setVal cs n m st.value
      | none =>
          show alookup cs m =
            if m = n then
              (alookup cs m).map (fun c => { c with value := st.value })
            else alookup cs m
          by_cases hm : m = n
          · rw [if_pos hm, hm, hc]
            rfl
          · rw [if_neg hm]

theorem alookup_resetFold (init : Snapshot) (names : List String)
    (cs : Controls) (m : String) :
    alookup (names.foldl (resetStep init) cs) m =
      if m ∈ names then
        match alookup init m with
        | some st => (alookup cs m).map (fun c => { c with value := st.value })
        | none => alookup cs m
      else alookup cs m := by
  induction names generalizing cs with
  | nil => simp
  | cons n rest ih =>
      rw [List.foldl_cons, ih]
      by_cases hm : m = n
      · subst hm
        have hstep := resetStep_alookup init cs m m
        cases hi : alookup init m with
        | none =>
            simp only [hi] at hstep
            rw [hstep]
            simp only [hi]
            rw [ite_self, ite_self]
        | some st =>
            simp [hi] at hstep
            simp only [hi]
            rw [hstep]
            by_cases hr : m ∈ rest
            · rw [if_pos hr, if_pos (List.mem_cons_self _ _), vmap_idem]
            · rw [if_neg hr, if_pos (List.mem_cons_self _ _)]
      · have hcs : alookup (resetStep init cs n) m = alookup cs m := by
          rw [resetStep_alookup]
          cases hi2 : alookup init n with
          | none => rfl
          | some st => exact if_neg hm
        rw [hcs]
        by_cases hr : m ∈ rest
        · rw [if_pos hr, if_pos (List.mem_cons_of_mem _ hr)]
        · rw [if_neg hr, if_neg (by simp [List.mem_cons, hm, hr])]

/-- C6: `resetControlsToInitialValue` is a no-op without a snapshot;
otherwise it sets each listed field to its snapshot value exactly when both
the live form has the field and the snapshot has an entry for it, silently
skipping names absent from either side, and leaves every unlisted field's
current value unchanged (as well as the pristine flag). -/
theorem resetFields_spec (s : RegistryState) (w : World) (id : Nat)
    (names : List String) :
    (alookup s.initialValuesMap (some id) = none →
      resetControlsToInitialValueE s w (some id) names = .ok w) ∧
    (∀ init, alookup s.initialValuesMap (some id) = some init →
      ∃ w2, resetControlsToInitialValueE s w (some id) names = .ok w2 ∧
        (∀ n, n ∉ names → controlValueAt w2 id n = controlValueAt w id n) ∧
        (∀ n st, n ∈ names → alookup init n = some st →
          (controlValueAt w id n).isSome →
          controlValueAt w2 id n = some st.value) ∧
        (∀ n, n ∈ names → alookup init n = none →
          controlValueAt w2 id n = controlValueAt w id n) ∧
        (∀ n, controlValueAt w id n = none → controlValueAt w2 id n = none) ∧
        (wget w2 id).pristine = (wget w id).pristine) := by
  constructor
  · intro h
    simp [resetControlsToInitialValueE, h]
  · intro init hinit
    refine ⟨wset w id
      { controls := names.foldl (resetStep init) (wget w id).controls,
        pristine := (wget w id).pristine }, ?_, ?_, ?_, ?_, ?_, ?_⟩
    · simp only [resetControlsToInitialValueE, hinit]
    · intro n hn
      unfold controlValueAt controlsOf
      rw [wget_wset_self]
      rw [alookup_resetFold, if_neg hn]
    · intro n st hn hst hsome
      unfold controlValueAt controlsOf
      rw [wget_wset_self]
      rw [alookup_resetFold, if_pos hn]
      simp only [hst]
      unfold controlValueAt controlsOf at hsome
      cases hc : alookup (wget w id).controls n with
      | none => rw [hc] at hsome; simp at hsome
      | some c0 => simp [hc]
    · intro n hn hst
      unfold controlValueAt controlsOf
      rw [wget_wset_self]
      rw [alookup_resetFold, if_pos hn]
      simp only [hst]
    · intro n hnone
      unfold controlValueAt controlsOf
      rw [wget_wset_self]
      rw [alookup_resetFold]
      unfold controlValueAt controlsOf at hnone
      cases hc : alookup (wget w id).controls n with
      | some c0 => rw [hc] at hnone; simp at hnone
      | none =>
          by_cases hn : n ∈ names
          · rw [if_pos hn]
            cases hi : alookup init n <;> simp [hc]
          · rw [if_neg hn]
            simp [hc]
    · rw [wget_wset_self]

theorem resetFields_spec_witness :
    controlValueAt resetW2 0 "name" = some 10 := by
  obtain ⟨w2, hok, _, hset, _, _, _⟩ :=
    (resetFields_spec c1State regW1 0 ["name", "missing"]).2
      [("name", ⟨10, false, none⟩)] rfl
  have h2 : resetControlsToInitialValueE c1State regW1 (some 0)
      ["name", "missing"] = .ok resetW2 := rfl
  rw [hok] at h2
  have hw : w2 = resetW2 := by
    injection h2
  subst hw
  exact hset "name" ⟨10, false, none⟩ (by simp) rfl (by decide)

theorem resetAll_spec_witness :
    (wget resetW2 0).pristine = true ∧
    controlValueAt resetW2 0 "name" = some 10 := by
  obtain ⟨w2, hok, hp, hset, _, _⟩ :=
    (resetAll_spec true c1State regW1 0
      (fun init h => by rw [← Option.some_inj.mp h]; decide)).2
      [("name", ⟨10, false, none⟩)] rfl
  have h2 : resetToInitialValuesE true c1State regW1 (some 0) =
      .ok resetW2 := rfl
  rw [hok] at h2
  have hw : w2 = resetW2 := by
    injection h2
  subst hw
  exact ⟨hp, hset "name" ⟨10, false, none⟩ rfl (by decide)⟩

/-! ## C7 — releaseForm -/

theorem cleanupForm_initialValuesMap (s : RegistryState) (fg : FormKey) :
    (cleanupForm s fg).initialValuesMap = aerase s.initialValuesMap fg := by
  unfold cleanupForm unsubscribe
  cases hsub : alookup s.subscriptions fg with
  | none => rfl
  | some sid => cases hh : alookup s.subHeap sid <;> simp [hh]

theorem cleanupForm_formChangedMap (s : RegistryState) (fg : FormKey) :
    (cleanupForm s fg).formChangedMap = aerase s.formChangedMap fg := by
  unfold cleanupForm unsubscribe
  cases hsub : alookup s.subscriptions fg with
  | none => rfl
  | some sid => cases hh : alookup s.subHeap sid <;> simp [hh]

theorem cleanupForm_subscriptions (s : RegistryState) (fg : FormKey) :
    (cleanupForm s fg).subscriptions =
      match alookup s.subscriptions fg with
      | some _ => aerase s.subscriptions fg
      | none => s.subscriptions := by
  unfold cleanupForm unsubscribe
  cases hsub : alookup s.subscriptions fg with
  | none => rfl
  | some sid => cases hh : alookup s.subHeap sid <;> simp [hh]

theorem cleanupForm_signalHeap (s : RegistryState) (fg : FormKey) :
    (cleanupForm s fg).signalHeap = s.signalHeap := by
  unfold cleanupForm unsubscribe
  cases hsub : alookup s.subscriptions fg with
  | none => rfl
  | some sid => cases hh : alookup s.subHeap sid <;> simp [hh]

theorem cleanupForm_subHeap (s : RegistryState) (fg : FormKey) :
    (cleanupForm s fg).subHeap =
      match alookup s.subscriptions fg with
      | some sid => (unsubscribe s sid).subHeap
      | none => s.subHeap := by
  unfold cleanupForm
  cases hsub : alookup s.subscriptions fg with
  | none => rfl
  | some sid => rfl

theorem foldl_if_false {α γ : Type} (l : List γ) (cond : γ → Prop)
    [DecidablePred cond] (g : α → γ → α) (acc : α)
    (h : ∀ p ∈ l, ¬ cond p) :
    l.foldl (fun a p => if cond p then g a p else a) acc = acc := by
  induction l generalizing acc with
  | nil => rfl
  | cons q rest ih =>
      rw [List.foldl_cons, if_neg (h q (List.mem_cons_self _ _))]
      exact ih _ (fun p hp => h p (List.mem_cons_of_mem _ hp))

theorem deliver_no_active (s : RegistryState) (w : World) (fg : FormKey)
    (h : ∀ p ∈ s.subHeap, ¬(p.2.form = fg ∧ p.2.active = true)) :
    deliverValueChange s w fg = s := by
  unfold deliverValueChange
  exact foldl_if_false s.subHeap
    (fun p => p.2.form = fg ∧ p.2.active = true)
    (fun a p => writeSignal a p.2.sig (hasFormChanged a fg (controlsOfK w fg)))
    s h

/-- C7: after `cleanupForm`, none of the three tables has an entry for the
form; the subscription that was held for it has been unsubscribed, so a
subsequent value-change event on the form updates no signal; and on a form
with no entries the call is a no-op.  The hypotheses say the state is one a
JavaScript `Map` can be in (no duplicate keys) and that every still-active
subscription observing the form is the tracked one — true in every
reachable state, since registration unsubscribes the previous handle
before replacing it. -/
theorem releaseForm_spec (s : RegistryState) (w : World) (fg : FormKey)
    (hndI : keysNodup s.initialValuesMap) (hndC : keysNodup s.formChangedMap)
    (hndS : keysNodup s.subscriptions) (hndH : keysNodup s.subHeap)
    (htracked : ∀ p ∈ s.subHeap, p.2.form = fg → p.2.active = true →
      alookup s.subscriptions fg = some p.1) :
    (alookup (cleanupForm s fg).initialValuesMap fg = none ∧
     alookup (cleanupForm s fg).formChangedMap fg = none ∧
     alookup (cleanupForm s fg).subscriptions fg = none) ∧
    (∀ sid, alookup s.subscriptions fg = some sid →
      subActive (cleanupForm s fg) sid = false) ∧
    ((alookup s.subscriptions fg = none ∧
      alookup s.initialValuesMap fg = none ∧
      alookup s.formChangedMap fg = none) → cleanupForm s fg = s) ∧
    deliverValueChange (cleanupForm s fg) w fg = cleanupForm s fg := by
  refine ⟨⟨?_, ?_, ?_⟩, ?_, ?_, ?_⟩
  · rw [cleanupForm_initialValuesMap]
    exact alookup_aerase_self _ _ hndI
  · rw [cleanupForm_formChangedMap]
    exact alookup_aerase_self _ _ hndC
  · rw [cleanupForm_subscriptions]
    cases hsub : alookup s.subscriptions fg with
    | none => exact hsub
    | some sid => exact alookup_aerase_self _ _ hndS
  · intro sid hsub
    unfold subActive
    rw [cleanupForm_subHeap]
    simp only [hsub]
    unfold unsubscribe
    cases hh : alookup s.subHeap sid with
    | none => simp [hh]
    | some r => simp [alookup_aset_self]
  · rintro ⟨h1, h2, h3⟩
    unfold cleanupForm
    simp only [h1]
    rw [aerase_of_alookup_none h2, aerase_of_alookup_none h3]
  · apply deliver_no_active
    intro p hp
    rintro ⟨hform, hact⟩
    rw [cleanupForm_subHeap] at hp
    cases hsub : alookup s.subscriptions fg with
    | none =>
        simp only [hsub] at hp
        have := htracked p hp hform hact
        rw [hsub] at this
        cases this
    | some sid =>
        simp only [hsub] at hp
        unfold unsubscribe at hp
        cases hh : alookup s.subHeap sid with
        | none =>
            simp only [hh] at hp
            have hps := htracked p hp hform hact
            rw [hsub] at hps
            have hpsid : p.1 = sid := (Option.some_inj.mp hps).symm
            have : alookup s.subHeap p.1 = some p.2 := mem_alookup hndH hp
            rw [hpsid, hh] at this
            cases this
        | some r =>
            simp only [hh] at hp
            rcases mem_aset_cases hndH hp with heq | ⟨hmem, hne⟩
            · rw [heq] at hact
              cases hact
            · have hps := htracked p hmem hform hact
              rw [hsub] at hps
              exact hne (Option.some_inj.mp hps).symm

theorem releaseForm_spec_witness :
    alookup (cleanupForm reregState (some 0)).subscriptions (some 0) = none ∧
    deliverValueChange (cleanupForm reregState (some 0)) regW1 (some 0) =
      cleanupForm reregState (some 0) := by
  have h := releaseForm_spec reregState regW1 (some 0) (by decide) (by decide)
    (by decide) (by decide) (by decide)
  exact ⟨h.1.2.2, h.2.2.2⟩

theorem obs_ext (s s2 : RegistryState) (g : FormKey)
    (h1 : alookup s2.initialValuesMap g = alookup s.initialValuesMap g)
    (h2 : alookup s2.formChangedMap g = alookup s.formChangedMap g)
    (h3 : alookup s2.subscriptions g = alookup s.subscriptions g)
    (h4 : ∀ gsid, alookup s.formChangedMap g = some gsid →
      readSignal s2 gsid = readSignal s gsid)
    (h5 : ∀ gsub, alookup s.subscriptions g = some gsub →
      subActive s2 gsub = subActive s gsub) :
    obsOf s2 g = obsOf s g := by
  have h4m : (alookup s.formChangedMap g).map (readSignal s2) =
      (alookup s.formChangedMap g).map (readSignal s) := by
    cases hgs : alookup s.formChangedMap g with
    | none => rfl
    | some gsid => simp [h4 gsid hgs]
  have h5m : (alookup s.subscriptions g).map (subActive s2) =
      (alookup s.subscriptions g).map (subActive s) := by
    cases hgs : alookup s.subscriptions g with
    | none => rfl
    | some gsub => simp [h5 gsub hgs]
  unfold obsOf
  rw [h1, h2, h3, h4m, h5m]

theorem obs_store (s : RegistryState) (w : World) (id : Nat) (g : FormKey)
    (hWF : WF s) (hg1 : g ≠ some id) :
    obsOf (storeInitialValues s w id) g = obsOf s g := by
  obtain ⟨hWF1, hWF2, hWF3⟩ := hWF
  obtain ⟨sigId, hSub⟩ := storeInitialValues_subHeap s w id
  refine obs_ext _ _ _ ?_ ?_ ?_ ?_ ?_
  · rw [storeInitialValues_initialValuesMap, alookup_aset_ne _ _ _ _ hg1]
  · rw [storeInitialValues_formChangedMap]
    cases hsig : alookup s.formChangedMap (some id) with
    | some sid => rfl
    | none => exact alookup_aset_ne _ _ _ _ hg1
  · rw [storeInitialValues_subscriptions, alookup_aset_ne _ _ _ _ hg1]
  · intro gsid hgs
    unfold readSignal
    rw [storeInitialValues_signalHeap]
    cases hsig : alookup s.formChangedMap (some id) with
    | some sid => rfl
    | none =>
        have hlt : gsid < s.nextSignal := hWF1 _ (alookup_mem hgs)
        rw [alookup_aset_ne _ _ _ _ (Nat.ne_of_lt hlt)]
  · intro gsub hgs
    unfold subActive
    rw [hSub]
    have hlt : gsub < s.nextSub := hWF2 _ (alookup_mem hgs)
    rw [alookup_aset_ne _ _ _ _ (Nat.ne_of_lt hlt)]
    cases hsub : alookup s.subscriptions (some id) with
    | none => rfl
    | some fsub =>
        unfold unsubscribe
        cases hh : alookup s.subHeap fsub with
        | none => simp [hh]
        | some r =>
            have hne : gsub ≠ fsub := fun he =>
              hg1 (hWF3 _ (alookup_mem hgs) _ (alookup_mem hsub) (by rw [he]))
            simp only [hh, alookup_aset_ne _ _ _ _ hne]

theorem obs_getFormChanged (s : RegistryState) (fg g : FormKey) (hWF : WF s)
    (hg2 : g ≠ fg) :
    obsOf (getFormChanged s fg).1 g = obsOf s g := by
  obtain ⟨hWF1, _, _⟩ := hWF
  cases hsig : alookup s.formChangedMap fg with
  | some sid => simp [getFormChanged, hsig]
  | none =>
      unfold getFormChanged
      simp only [hsig]
      refine obs_ext _ _ _ rfl ?_ rfl ?_ ?_
      · exact alookup_aset_ne _ _ _ _ hg2
      · intro gsid hgs
        unfold readSignal
        have hlt : gsid < s.nextSignal := hWF1 _ (alookup_mem hgs)
        simp only [alookup_aset_ne _ _ _ _ (Nat.ne_of_lt hlt)]
      · intro gsub hgs
        rfl

theorem obs_update (s : RegistryState) (w : World) (id : Nat) (g : FormKey)
    (hg1 : g ≠ some id) :
    obsOf (updateInitialValuesForNewControls s w id) g = obsOf s g := by
  refine obs_ext _ _ _ ?_ rfl rfl (fun gsid hgs => rfl) (fun gsub hgs => rfl)
  unfold updateInitialValuesForNewControls
  simp only [alookup_aset_ne _ _ _ _ hg1]

theorem obs_cleanup (s : RegistryState) (fg g : FormKey) (hWF : WF s)
    (hg2 : g ≠ fg) :
    obsOf (cleanupForm s fg) g = obsOf s g := by
  obtain ⟨_, _, hWF3⟩ := hWF
  refine obs_ext _ _ _ ?_ ?_ ?_ ?_ ?_
  · rw [cleanupForm_initialValuesMap]
    exact alookup_aerase_ne _ _ _ hg2
  · rw [cleanupForm_formChangedMap]
    exact alookup_aerase_ne _ _ _ hg2
  · rw [cleanupForm_subscriptions]
    cases hsub : alookup s.subscriptions fg with
    | none => rfl
    | some sid => exact alookup_aerase_ne _ _ _ hg2
  · intro gsid hgs
    unfold readSignal
    rw [cleanupForm_signalHeap]
  · intro gsub hgs
    unfold subActive
    rw [cleanupForm_subHeap]
    cases hsub : alookup s.subscriptions fg with
    | none => rfl
    | some sid =>
        unfold unsubscribe
        cases hh : alookup s.subHeap sid with
        | none => simp [hh]
        | some r =>
            have hne : gsub ≠ sid := fun he =>
              hg2 (hWF3 _ (alookup_mem hgs) _ (alookup_mem hsub) (by rw [he]))
            simp only [hh, alookup_aset_ne _ _ _ _ hne]

/-- C10: for two distinct forms, every state-changing registry operation
invoked with one leaves the other's snapshot entry, signal identity and
value, and subscription identity and active status unchanged (the reset
operations touch only the live form, not the registry, so they preserve
all entries by construction). -/
theorem per_form_isolation (s : RegistryState) (w : World) (id : Nat)
    (fg : FormKey) (g : FormKey) (hWF : WF s) (hg1 : g ≠ some id)
    (hg2 : g ≠ fg) :
    obsOf (storeInitialValues s w id) g = obsOf s g ∧
    obsOf (getFormChanged s fg).1 g = obsOf s g ∧
    obsOf (updateInitialValuesForNewControls s w id) g = obsOf s g ∧
    obsOf (cleanupForm s fg) g = obsOf s g :=
  ⟨obs_store s w id g hWF hg1, obs_getFormChanged s fg g hWF hg2,
   obs_update s w id g hg1, obs_cleanup s fg g hWF hg2⟩

theorem per_form_isolation_witness :
    obsOf (storeInitialValues reregState regW1 1) (some 0) =
      obsOf reregState (some 0) ∧
    obsOf (cleanupForm reregState (some 1)) (some 0) =
      obsOf reregState (some 0) :=
  ⟨(per_form_isolation reregState regW1 1 (some 1) (some 0) (by decide)
      (by decide) (by decide)).1,
   (per_form_isolation reregState regW1 1 (some 1) (some 0) (by decide)
      (by decide) (by decide)).2.2.2⟩

